import Mathlib

/-!
Verification of the core algorithms of the Library e-book reader:
the SM-2 spaced-repetition scheduler (src/lib/sm2.ts), the review-queue
selector (src/lib/review-utils.ts), the vocabulary mutations
(src/app/vocabulary/page.tsx), the session shuffle (ReviewPage), and the
page render cache / prefetch / eviction / cancellation machinery of the
PDF reader (src/components/reader/pdf-reader.tsx).

Numbers that are JavaScript floats in the source are modelled as exact
rationals; JavaScript integers as Int/Nat.  Dates are modelled as integer
timestamps.
-/

/-- JavaScript Math.round: rounds half toward positive infinity,
round(x) = floor(x + 1/2). -/
def jsRound (x : ℚ) : ℤ := ⌊x + 1/2⌋

/-- Rounding to two decimal places, as in Math.round(x * 100) / 100
(sm2.ts line 62). -/
def round2 (x : ℚ) : ℚ := ((jsRound (x * 100) : ℤ) : ℚ) / 100

/-- Result record of calculateSM2 (sm2.ts, SM2Result).  The nextReviewAt
field of the source (current date + interval days, normalized to midnight)
is clock-dependent and is omitted; the three arithmetic fields are kept. -/
structure SM2Result where
  interval : ℚ
  easeFactor : ℚ
  repetitions : ℤ
deriving DecidableEq, Repr

/-- Ease-factor update of sm2.ts lines 51-52, shared by both the
successful and the failed branch:
newEF = easeFactor + (0.1 - (5 - quality) * (0.08 + (5 - quality) * 0.02)),
then clamped below at 1.3. -/
def sm2NewEase (quality easeFactor : ℚ) : ℚ :=
  if easeFactor + (1/10 - (5 - quality) * (2/25 + (5 - quality) * (1/50))) < 13/10
  then 13/10
  else easeFactor + (1/10 - (5 - quality) * (2/25 + (5 - quality) * (1/50)))

/-- Shallow embedding of calculateSM2 (sm2.ts lines 24-65).
quality >= 3 is a successful recall: interval 1 / 6 / round(interval * ease)
for repetitions 0 / 1 / otherwise, repetitions incremented.  Otherwise
interval 1 and repetitions reset to 0.  The ease factor is updated by
sm2NewEase in both branches and rounded to 2 decimals on return. -/
def calculateSM2 (quality : ℚ) (repetitions : ℤ) (easeFactor interval : ℚ) :
    SM2Result :=
  let newInterval : ℚ :=
    if 3 ≤ quality then
      if repetitions = 0 then 1
      else if repetitions = 1 then 6
      else ((jsRound (interval * easeFactor) : ℤ) : ℚ)
    else 1
  let newReps : ℤ := if 3 ≤ quality then repetitions + 1 else 0
  { interval := newInterval
    easeFactor := round2 (sm2NewEase quality easeFactor)
    repetitions := newReps }

/-- Vocabulary record (types.ts VocabularyEntry together with the SM-2
scheduling fields interval / easeFactor / repetitions / nextReviewAt that
the version-8 database upgrade adds).  Fields not touched by any claim
(partOfSpeech, tags, bookId, ...) are omitted; nextReviewAt is an optional
integer timestamp, absent meaning never scheduled. -/
structure VocabularyEntry where
  id : ℕ
  word : String
  meaning : String
  mastered : Bool
  nextReviewAt : Option ℤ
  interval : ℚ
  easeFactor : ℚ
  repetitions : ℤ
  updatedAt : ℤ
deriving DecidableEq, Repr

/-- IndexedDB index key of a stored mastered value.  Every writer in the
repository stores a JS boolean into mastered (vocab-dialog.tsx line 104,
vocabulary/page.tsx line 63, flashcard-quiz.tsx handleAnswer,
ai-assistant.tsx line 266, and the type is boolean in types.ts), and
booleans are not valid IndexedDB keys, so no such record has an entry in
the mastered index: its index key is absent. -/
def masteredIndexKey : Bool → Option ℤ := fun _ => none

/-- Shallow embedding of getReviewQueue (review-utils.ts lines 5-16).
db.vocabulary.where("mastered").equals(0) ranges over the mastered index
and yields exactly the records whose index key is the number 0; a record
whose stored mastered value has no index key is not yielded.  The
in-memory filter then keeps a record when nextReviewAt is absent, or when
nextReviewAt <= now. -/
def getReviewQueue (now : ℤ) (allVocab : List VocabularyEntry) :
    List VocabularyEntry :=
  (allVocab.filter (fun v => masteredIndexKey v.mastered == some 0)).filter (fun v =>
    match v.nextReviewAt with
    | none => true
    | some t => decide (t ≤ now))

/-- Shallow embedding of toggleMastered (app/vocabulary/page.tsx lines
61-67): db.vocabulary.update(id, patch) patches the record whose primary
key is id with mastered := !current and updatedAt := now, leaving every
other field as it was. -/
def toggleMastered (table : List VocabularyEntry) (cardId : ℕ)
    (current : Bool) (now : ℤ) : List VocabularyEntry :=
  table.map (fun v =>
    if v.id = cardId then { v with mastered := !current, updatedAt := now } else v)

/-- Exchange of the entries at positions i and j of a list, as the
destructuring assignment of the Fisher-Yates loop performs it; positions
out of range leave the list unchanged (the loop only produces in-range
positions). -/
def listSwap {α : Type} (l : List α) (i j : ℕ) : List α :=
  match l[i]?, l[j]? with
  | some a, some b => (l.set i b).set j a
  | _, _ => l

/-- Fisher-Yates loop of ReviewPage (ai-assistant.tsx lines 226-231):
for i from length-1 down to 1, draw j = floor(random * (i+1)) — modelled
by an oracle r of random draws, j = r i % (i+1) ranging over [0, i] — and
exchange positions i and j. -/
def shuffleLoop {α : Type} (r : ℕ → ℕ) : ℕ → List α → List α
  | 0, l => l
  | i + 1, l => shuffleLoop r i (listSwap l (i + 1) (r (i + 1) % (i + 2)))

/-- Session shuffle of ReviewPage: the whole Fisher-Yates pass over a
card list. -/
def shuffleCards {α : Type} (r : ℕ → ℕ) (l : List α) : List α :=
  shuffleLoop r (l.length - 1) l

/-- Concrete card used as the boundary-case witness for the due queue:
nextReviewAt is exactly the query time. -/
def dueCard : VocabularyEntry :=
  { id := 1, word := "w", meaning := "m", mastered := false,
    nextReviewAt := some 100, interval := 0, easeFactor := 5/2,
    repetitions := 0, updatedAt := 0 }

/-- Prefetch window ahead of the current page (pdf-reader.tsx line 51). -/
def PREFETCH_AHEAD : ℕ := 3

/-- Prefetch window behind the current page (pdf-reader.tsx line 52). -/
def PREFETCH_BEHIND : ℕ := 1

/-- Shallow embedding of evictDistantPages (pdf-reader.tsx lines 108-116):
every cached page whose distance from the current page exceeds
PREFETCH_AHEAD + 1 is closed and deleted, so exactly the pages at distance
at most PREFETCH_AHEAD + 1 are kept.  The cache is abstracted to its set
of resident page numbers. -/
def evictDistantPages (cache : Finset ℕ) (current : ℕ) : Finset ℕ :=
  cache.filter (fun num => ((num : ℤ) - (current : ℤ)).natAbs ≤ PREFETCH_AHEAD + 1)

/-- Pages the render effect schedules for prefetch around the current page
(pdf-reader.tsx lines 252-257): the loop for i = 1..PREFETCH_AHEAD adds
current + i when current + i <= totalPages, then the loop for
i = 1..PREFETCH_BEHIND adds current - i when current - i >= 1; both
constant-bound loops are unrolled here. -/
def prefetchTargets (current total : ℕ) : List ℕ :=
  ([current + 1, current + 2, current + 3].filter (fun p => p ≤ total)) ++
    (if 1 ≤ current - 1 then [current - 1] else [])

/-- State of the cache during sequential navigation at a fixed scale:
the resident page numbers of pageCacheRef, the pendingPrefetches set
prefetchingRef, and the page most recently navigated to.  Prefetches are
fire-and-forget: they are never cancelled, and at this fixed scale the
completion guard of line 95 always passes, so every pending prefetch
eventually inserts its page whenever it completes — possibly many
navigations later. -/
structure PCState where
  resident : Finset ℕ
  pending : Finset ℕ
  current : ℕ
deriving DecidableEq

/-- Events of sequential navigation: navNext is one completed render
effect pass for the next page (pdf-reader.tsx lines 155-258: render and
cache the page, evict distant pages, then spawn a prefetch for each
target not already cached and not already pending, per the guard at line
77); prefetchComplete is the later, arbitrarily scheduled completion of
a pending prefetch, which inserts its page and leaves the pending set
(lines 95-102). -/
inductive PCEvent where
  | navNext
  | prefetchComplete (p : ℕ)
deriving DecidableEq, Repr

/-- Transition function of sequential navigation with asynchronous
prefetch completions. -/
def applyPC (total : ℕ) (st : PCState) : PCEvent → PCState
  | PCEvent.navNext =>
    PCState.mk
      (evictDistantPages (insert (st.current + 1) st.resident) (st.current + 1))
      (st.pending ∪
        ((prefetchTargets (st.current + 1) total).toFinset \
          (evictDistantPages (insert (st.current + 1) st.resident)
              (st.current + 1) ∪
            st.pending)))
      (st.current + 1)
  | PCEvent.prefetchComplete p =>
    if p ∈ st.pending
    then PCState.mk (insert p st.resident) (st.pending.erase p) st.current
    else st

/-- Folding a list of navigation and prefetch-completion events. -/
def runPC (total : ℕ) (st : PCState) (evs : List PCEvent) : PCState :=
  evs.foldl (applyPC total) st

/-- Fresh session: empty cache, no pending prefetches, before page 1. -/
def initPC : PCState := PCState.mk ∅ ∅ 0

/-- Invariant of sequential navigation: no resident or pending page lies
beyond current + PREFETCH_AHEAD, because only pages up to current + 3 are
ever rendered or scheduled. -/
def pcUB (st : PCState) : Prop :=
  (∀ p ∈ st.resident, p ≤ st.current + 3) ∧ (∀ p ∈ st.pending, p ≤ st.current + 3)

/-- Schedule through pages 1..4 of a 7-page document in which every
prefetch completes before the next navigation; it leaves pages 1..7
resident. -/
def c1CounterTrace : List PCEvent :=
  [PCEvent.navNext, PCEvent.prefetchComplete 2, PCEvent.prefetchComplete 3,
   PCEvent.prefetchComplete 4, PCEvent.navNext, PCEvent.prefetchComplete 5,
   PCEvent.navNext, PCEvent.prefetchComplete 6, PCEvent.navNext,
   PCEvent.prefetchComplete 7]

/-- Schedule through pages 1..7 of a 10-page document in which the
prefetch of page 2, spawned at step 1, completes only after the eviction
at step 7 has removed page 2: its late insertion brings residency to 9
entries. -/
def c1NineTrace : List PCEvent :=
  [PCEvent.navNext, PCEvent.navNext, PCEvent.navNext, PCEvent.navNext,
   PCEvent.navNext, PCEvent.navNext, PCEvent.navNext,
   PCEvent.prefetchComplete 8, PCEvent.prefetchComplete 9,
   PCEvent.prefetchComplete 10, PCEvent.prefetchComplete 2]

/-- State of the page render cache of pdf-reader.tsx under scale changes:
the entries of pageCacheRef (each bitmap abstracted by the scale it was
rendered at), the generation tag cacheScaleRef, the main-render closure
in flight that has not yet reached its cancelled check of line 198
(pendingMain), and the closures that have already passed their guard and
are suspended in an await createImageBitmap, after which they call
cache.set unconditionally: main-render closures past the line-198 check
(mainWait) and prefetch closures past the line-95 scale check
(prefetchWait).  Nothing can stop a closure in a wait list from
inserting. -/
structure PageCacheState where
  cache : List (ℕ × ℚ)
  cacheScale : ℚ
  pendingMain : Option (ℕ × ℚ)
  mainWait : List (ℕ × ℚ)
  prefetchWait : List (ℕ × ℚ)
deriving DecidableEq, Repr

/-- Events acting on the page cache: a run of the render effect for a
page at a scale (pdf-reader.tsx lines 155-204); the in-flight main render
reaching and passing the !cancelled check of line 198; a main-render
closure resuming from await createImageBitmap (line 200) and inserting
(line 201); a prefetch closure reaching and passing the cacheScaleRef
check of line 95; and a prefetch closure resuming from await
createImageBitmap (line 96) and inserting (line 97). -/
inductive CacheEvent where
  | effectRun (page : ℕ) (scale : ℚ)
  | mainCheckPassed
  | mainBitmapDone (page : ℕ) (renderScale : ℚ)
  | prefetchGuardPassed (page : ℕ) (renderScale : ℚ)
  | prefetchBitmapDone (page : ℕ) (renderScale : ℚ)
deriving DecidableEq, Repr

/-- Map.set on the cache: stores the entry for a page, replacing any
previous one. -/
def setEntry (cache : List (ℕ × ℚ)) (p : ℕ) (s : ℚ) : List (ℕ × ℚ) :=
  (p, s) :: cache.filter (fun e => !(e.1 == p))

/-- Scale flush at the start of a render effect run (pdf-reader.tsx lines
159-163): when the scale changed, every cached bitmap is closed and the
map cleared, and cacheScaleRef is set to the new scale, all before any
cache lookup.  Closures already past their guard and suspended in await
createImageBitmap are unaffected. -/
def flushIfScaleChanged (st : PageCacheState) (scale : ℚ) : PageCacheState :=
  if st.cacheScale ≠ scale
  then PageCacheState.mk [] scale st.pendingMain st.mainWait st.prefetchWait
  else st

/-- Transition function of the page cache.
effectRun: after the scale flush, a cache hit draws the cached bitmap, a
miss leaves a main render in flight; either way the previous in-flight
closure is superseded: its cancelled flag is set, so it can no longer
pass the line-198 check.  mainCheckPassed: the in-flight closure passes
!cancelled (line 198) and starts await createImageBitmap.
mainBitmapDone: a closure past the check resumes and inserts its bitmap
unconditionally (line 201).  prefetchGuardPassed: a prefetch closure
finds cacheScaleRef equal to the scale it captured (line 95) and starts
await createImageBitmap.  prefetchBitmapDone: a prefetch closure past
the guard resumes and inserts its bitmap unconditionally (line 97) —
even if the scale has changed during the await. -/
def applyCacheEvent (st : PageCacheState) : CacheEvent → PageCacheState
  | CacheEvent.effectRun page scale =>
    if ((flushIfScaleChanged st scale).cache.lookup page).isSome
    then { flushIfScaleChanged st scale with pendingMain := none }
    else { flushIfScaleChanged st scale with pendingMain := some (page, scale) }
  | CacheEvent.mainCheckPassed =>
    match st.pendingMain with
    | some pr =>
      PageCacheState.mk st.cache st.cacheScale none (pr :: st.mainWait)
        st.prefetchWait
    | none => st
  | CacheEvent.mainBitmapDone page renderScale =>
    if (page, renderScale) ∈ st.mainWait
    then PageCacheState.mk (setEntry st.cache page renderScale) st.cacheScale
      st.pendingMain (st.mainWait.erase (page, renderScale)) st.prefetchWait
    else st
  | CacheEvent.prefetchGuardPassed page renderScale =>
    if st.cacheScale = renderScale
    then PageCacheState.mk st.cache st.cacheScale st.pendingMain st.mainWait
      ((page, renderScale) :: st.prefetchWait)
    else st
  | CacheEvent.prefetchBitmapDone page renderScale =>
    if (page, renderScale) ∈ st.prefetchWait
    then PageCacheState.mk (setEntry st.cache page renderScale) st.cacheScale
      st.pendingMain st.mainWait (st.prefetchWait.erase (page, renderScale))
    else st

/-- Folding a list of cache events from a state. -/
def runCache (st : PageCacheState) (evs : List CacheEvent) : PageCacheState :=
  evs.foldl applyCacheEvent st

/-- Fresh cache at an initial scale (pdf-reader.tsx lines 53-54). -/
def initCache (s0 : ℚ) : PageCacheState :=
  PageCacheState.mk [] s0 none [] []

/-- Interleaving that exhibits the stale-scale insertion: a prefetch of
page 5 at scale 1 passes the line-95 guard, the user changes the scale to
2 (the effect flushes the cache and re-renders page 3), then the
prefetch's createImageBitmap await resolves and its cache.set runs. -/
def c3BugTrace : List CacheEvent :=
  [CacheEvent.prefetchGuardPassed 5 1, CacheEvent.effectRun 3 2,
   CacheEvent.prefetchBitmapDone 5 1]

/-- Await points of one run of the PDF render effect closure
(pdf-reader.tsx lines 166-258).  The closure checks its cancelled flag
when it resumes from the first three awaits (lines 173, 191-206, 210) but
NOT when it resumes from the text-layer render await (line 223): from
there it proceeds to apply highlights and fire onPageChange (line 248)
unconditionally. -/
inductive RenderPhase where
  | atGetPage
  | atRenderTask
  | atTextContent
  | atTlRender
deriving DecidableEq, Repr

/-- Successor await point of a render effect closure. -/
def nextPhase : RenderPhase → RenderPhase
  | RenderPhase.atGetPage => RenderPhase.atRenderTask
  | RenderPhase.atRenderTask => RenderPhase.atTextContent
  | RenderPhase.atTextContent => RenderPhase.atTlRender
  | RenderPhase.atTlRender => RenderPhase.atTlRender

/-- One live run of the render effect: the navigation token it was issued
under (a closure is cancelled exactly when its token differs from the
session's current token), the page it captured, and its suspension
point. -/
structure RenderTask where
  token : ℕ
  page : ℕ
  phase : RenderPhase
deriving DecidableEq, Repr

/-- Document session state: the monotonically increasing token of the
most recent navigation request, the page it requested, the suspended
effect closures, and the page last committed via onPageChange. -/
structure ReaderState where
  curToken : ℕ
  curPage : ℕ
  tasks : List RenderTask
  reported : Option ℕ
deriving DecidableEq, Repr

/-- Session events: a navigation request (the effect re-runs, cancelling
the previous closure), or the asynchronous resumption of the closure with
a given token at its current await point. -/
inductive ReaderEvent where
  | navigate (page : ℕ)
  | resume (token : ℕ)
deriving DecidableEq, Repr

/-- Transition function of the document session.  navigate bumps the
token and spawns a closure for the requested page; older closures stay
suspended but are now cancelled.  resume advances the named closure: at
the three guarded awaits a cancelled closure returns without effect and a
current one moves on; at the unguarded text-layer await the closure fires
onPageChange with its captured page whether cancelled or not — exactly
the structure of the source. -/
def applyReaderEvent (st : ReaderState) : ReaderEvent → ReaderState
  | ReaderEvent.navigate page =>
    ReaderState.mk (st.curToken + 1) page
      (RenderTask.mk (st.curToken + 1) page RenderPhase.atGetPage :: st.tasks)
      st.reported
  | ReaderEvent.resume tk =>
    match st.tasks.find? (fun t => t.token == tk) with
    | none => st
    | some t =>
      match t.phase with
      | RenderPhase.atTlRender =>
        ReaderState.mk st.curToken st.curPage
          (st.tasks.filter (fun u => !(u.token == tk))) (some t.page)
      | ph =>
        if tk = st.curToken
        then ReaderState.mk st.curToken st.curPage
          (st.tasks.map (fun u =>
            if u.token == tk then RenderTask.mk u.token u.page (nextPhase ph) else u))
          st.reported
        else ReaderState.mk st.curToken st.curPage
          (st.tasks.filter (fun u => !(u.token == tk))) st.reported

/-- Folding a list of session events from a state. -/
def runReader (st : ReaderState) (evs : List ReaderEvent) : ReaderState :=
  evs.foldl applyReaderEvent st

/-- Fresh document session before the first navigation. -/
def initReader : ReaderState :=
  { curToken := 0, curPage := 0, tasks := [], reported := none }

/-- Interleaving that exhibits the stale onPageChange report: navigate to
page 5, let its closure reach the text-layer await, navigate to page 7
and let that render commit, then let the superseded page-5 closure
resume. -/
def c4BugTrace : List ReaderEvent :=
  [ReaderEvent.navigate 5, ReaderEvent.resume 1, ReaderEvent.resume 1,
   ReaderEvent.resume 1, ReaderEvent.navigate 7, ReaderEvent.resume 2,
   ReaderEvent.resume 2, ReaderEvent.resume 2, ReaderEvent.resume 2,
   ReaderEvent.resume 1]

theorem le_round2_of_le {x : ℚ} (h : 13/10 ≤ x) : 13/10 ≤ round2 x := by
  have h130 : ((130 : ℤ) : ℚ) ≤ x * 100 + 1/2 := by push_cast; linarith
  have hfl : (130 : ℤ) ≤ jsRound (x * 100) := by
    unfold jsRound
    exact Int.le_floor.mpr h130
  have hq : (130 : ℚ) ≤ ((jsRound (x * 100) : ℤ) : ℚ) := by exact_mod_cast hfl
  unfold round2
  linarith

/-- C2: for every input to calculateSM2 with quality in [0,5],
repetitions >= 0, easeFactor >= 1.3 and interval >= 0, the returned
easeFactor is at least 1.3 (the clamp at sm2.ts line 52 followed by the
2-decimal rounding preserves the 1.3 floor). -/
theorem c2_ease_floor (q : ℚ) (reps : ℤ) (ef i : ℚ)
    (hq0 : 0 ≤ q) (hq5 : q ≤ 5) (hr : 0 ≤ reps) (hef : 13/10 ≤ ef)
    (hi : 0 ≤ i) :
    13/10 ≤ (calculateSM2 q reps ef i).easeFactor := by
  have hbase : 13/10 ≤ sm2NewEase q ef := by
    unfold sm2NewEase
    split_ifs with h
    · exact le_refl _
    · linarith [not_lt.mp h]
  simpa [calculateSM2] using le_round2_of_le hbase

/-- Witness for c2_ease_floor at quality 0, repetitions 3, ease 1.3,
interval 5 (the spec example input). -/
theorem c2_ease_floor_witness :
    (0 : ℚ) ≤ 0 ∧ (0 : ℚ) ≤ 5 ∧ (0 : ℤ) ≤ 3 ∧ (13 : ℚ)/10 ≤ 13/10 ∧
      (0 : ℚ) ≤ 5 ∧ 13/10 ≤ (calculateSM2 0 3 (13/10) 5).easeFactor :=
  ⟨le_refl 0, by norm_num, by norm_num, le_refl _, by norm_num,
    c2_ease_floor 0 3 (13/10) 5 (le_refl 0) (by norm_num) (by norm_num)
      (le_refl _) (by norm_num)⟩

/-- C5: for every input with quality >= 3, calculateSM2 returns interval 1
when repetitions is 0 and interval 6 when repetitions is 1, regardless of
the ease factor and of the input interval (sm2.ts lines 36-39). -/
theorem c5_first_second_intervals (q ef i : ℚ) (hq : 3 ≤ q) :
    (calculateSM2 q 0 ef i).interval = 1 ∧ (calculateSM2 q 1 ef i).interval = 6 := by
  constructor <;> simp [calculateSM2, if_pos hq]

/-- Witness for c5_first_second_intervals at quality 4, ease 2.5,
interval 17. -/
theorem c5_first_second_intervals_witness :
    (3 : ℚ) ≤ 4 ∧ ((calculateSM2 4 0 (5/2) 17).interval = 1 ∧
      (calculateSM2 4 1 (5/2) 17).interval = 6) :=
  ⟨by norm_num, c5_first_second_intervals 4 (5/2) 17 (by norm_num)⟩

/-- C6: for every input with quality < 3, calculateSM2 returns interval 1
and repetitions 0, and the ease factor of the result is
round2 of the clamped update
easeFactor + (0.1 - (5 - quality) * (0.08 + (5 - quality) * 0.02)) —
the very same update that a successful recall applies (last conjunct). -/
theorem c6_failed_recall (q : ℚ) (reps : ℤ) (ef i : ℚ) (hq : q < 3) :
    (calculateSM2 q reps ef i).interval = 1 ∧
    (calculateSM2 q reps ef i).repetitions = 0 ∧
    (calculateSM2 q reps ef i).easeFactor =
      round2 (if ef + (1/10 - (5 - q) * (2/25 + (5 - q) * (1/50))) < 13/10
        then 13/10
        else ef + (1/10 - (5 - q) * (2/25 + (5 - q) * (1/50)))) ∧
    (∀ q2 reps2 i2 : ℚ, ∀ r2 : ℤ, 3 ≤ q2 →
      (calculateSM2 q2 r2 ef i2).easeFactor =
        round2 (if ef + (1/10 - (5 - q2) * (2/25 + (5 - q2) * (1/50))) < 13/10
          then 13/10
          else ef + (1/10 - (5 - q2) * (2/25 + (5 - q2) * (1/50))))) := by
  have hq3 : ¬ (3 ≤ q) := not_le.mpr hq
  refine ⟨by simp [calculateSM2, if_neg hq3], by simp [calculateSM2, if_neg hq3],
    by simp [calculateSM2, sm2NewEase], ?_⟩
  intro q2 _reps2 i2 r2 hq2
  simp [calculateSM2, sm2NewEase]

/-- Witness for c6_failed_recall at quality 1, repetitions 5, ease 2,
interval 10 (the final conjunct instantiated at quality 4). -/
theorem c6_failed_recall_witness :
    (1 : ℚ) < 3 ∧
      ((calculateSM2 1 5 2 10).interval = 1 ∧
        (calculateSM2 1 5 2 10).repetitions = 0 ∧
        (calculateSM2 1 5 2 10).easeFactor =
          round2 (if (2:ℚ) + (1/10 - (5 - 1) * (2/25 + (5 - 1) * (1/50))) < 13/10
            then 13/10
            else 2 + (1/10 - (5 - 1) * (2/25 + (5 - 1) * (1/50)))) ∧
        (calculateSM2 4 2 2 10).easeFactor =
          round2 (if (2:ℚ) + (1/10 - (5 - 4) * (2/25 + (5 - 4) * (1/50))) < 13/10
            then 13/10
            else 2 + (1/10 - (5 - 4) * (2/25 + (5 - 4) * (1/50))))) := by
  have h := c6_failed_recall 1 5 2 10 (by norm_num)
  exact ⟨by norm_num, h.1, h.2.1, h.2.2.1, h.2.2.2 4 0 10 2 (by norm_num)⟩

/-- C8: for fixed quality >= 3, repetitions >= 2 and interval > 0, the
interval returned by calculateSM2 is monotone in the ease factor:
round(interval * ef1) <= round(interval * ef2) when ef1 <= ef2. -/
theorem c8_interval_monotone (q : ℚ) (reps : ℤ) (ef1 ef2 i : ℚ)
    (hq : 3 ≤ q) (hr : 2 ≤ reps) (hi : 0 < i) (hef : ef1 ≤ ef2) :
    (calculateSM2 q reps ef1 i).interval ≤ (calculateSM2 q reps ef2 i).interval := by
  have h0 : reps ≠ 0 := by omega
  have h1 : reps ≠ 1 := by omega
  have hmul : i * ef1 ≤ i * ef2 := mul_le_mul_of_nonneg_left hef hi.le
  have hfl : jsRound (i * ef1) ≤ jsRound (i * ef2) := by
    unfold jsRound
    exact Int.floor_le_floor (by linarith)
  simp only [calculateSM2, if_pos hq, if_neg h0, if_neg h1]
  exact_mod_cast hfl

/-- Witness for c8_interval_monotone at quality 4, repetitions 2, ease
factors 2 and 2.5, interval 10. -/
theorem c8_interval_monotone_witness :
    (3 : ℚ) ≤ 4 ∧ (2 : ℤ) ≤ 2 ∧ (0 : ℚ) < 10 ∧ (2 : ℚ) ≤ 5/2 ∧
      (calculateSM2 4 2 2 10).interval ≤ (calculateSM2 4 2 (5/2) 10).interval :=
  ⟨by norm_num, le_refl _, by norm_num, by norm_num,
    c8_interval_monotone 4 2 2 (5/2) 10 (by norm_num) (le_refl _) (by norm_num)
      (by norm_num)⟩

theorem cons_set_perm {α : Type} (t : List α) :
    ∀ (m : ℕ) (a b : α), t[m]? = some b → List.Perm (b :: t.set m a) (a :: t) := by
  induction t with
  | nil => intro m a b h; simp at h
  | cons c t ih =>
    intro m a b h
    cases m with
    | zero =>
      simp only [List.getElem?_cons_zero, Option.some.injEq] at h
      subst h
      simpa using List.Perm.swap a c t
    | succ k =>
      simp only [List.getElem?_cons_succ] at h
      have h1 : List.Perm (b :: c :: t.set k a) (c :: b :: t.set k a) :=
        List.Perm.swap c b _
      have h2 : List.Perm (c :: b :: t.set k a) (c :: a :: t) :=
        List.Perm.cons c (ih k a b h)
      have h3 : List.Perm (c :: a :: t) (a :: c :: t) := List.Perm.swap a c t
      simpa using (h1.trans h2).trans h3

theorem set_set_perm {α : Type} (l : List α) :
    ∀ (i j : ℕ) (a b : α), l[i]? = some a → l[j]? = some b →
      List.Perm ((l.set i b).set j a) l := by
  induction l with
  | nil => intro i j a b h _; simp at h
  | cons c t ih =>
    intro i j a b hi hj
    cases i with
    | zero =>
      simp only [List.getElem?_cons_zero, Option.some.injEq] at hi
      subst hi
      cases j with
      | zero => simp
      | succ k =>
        simp only [List.getElem?_cons_succ] at hj
        simpa using cons_set_perm t k c b hj
    | succ m =>
      simp only [List.getElem?_cons_succ] at hi
      cases j with
      | zero =>
        simp only [List.getElem?_cons_zero, Option.some.injEq] at hj
        subst hj
        simpa using cons_set_perm t m c a hi
      | succ k =>
        simp only [List.getElem?_cons_succ] at hj
        simpa using List.Perm.cons c (ih m k a b hi hj)

theorem listSwap_perm {α : Type} (l : List α) (i j : ℕ) :
    List.Perm (listSwap l i j) l := by
  unfold listSwap
  rcases hi : l[i]? with _ | a
  · exact List.Perm.refl l
  · rcases hj : l[j]? with _ | b
    · exact List.Perm.refl l
    · exact set_set_perm l i j a b hi hj

theorem shuffleLoop_perm {α : Type} (r : ℕ → ℕ) :
    ∀ (i : ℕ) (l : List α), List.Perm (shuffleLoop r i l) l := by
  intro i
  induction i with
  | zero => intro l; exact List.Perm.refl l
  | succ i ih =>
    intro l
    exact (ih _).trans (listSwap_perm l (i + 1) (r (i + 1) % (i + 2)))

/-- C10: the shuffled card list presented by the SM-2 review session is a
permutation of the due queue returned by getReviewQueue — the Fisher-Yates
pass neither drops, duplicates, nor adds any card, for every due queue
(the empty one included) and every sequence of random draws. -/
theorem c10_shuffle_permutation (r : ℕ → ℕ) (now : ℤ)
    (vocab : List VocabularyEntry) :
    List.Perm (shuffleCards r (getReviewQueue now vocab))
      (getReviewQueue now vocab) :=
  shuffleLoop_perm r _ _

/-- C7 exhibits a bug in the code: every writer stores mastered as a JS
boolean, booleans are not valid IndexedDB keys, so the Dexie query
where("mastered").equals(0) matches no record and getReviewQueue returns
the empty list for every store and every time — in particular the
non-mastered card dueCard with nextReviewAt equal to now is NOT included,
although the claim (and the function doc comment at review-utils.ts line
4) says it is. -/
theorem c7_due_queue_empty_bug :
    (∀ (now : ℤ) (vocab : List VocabularyEntry),
      getReviewQueue now vocab = []) ∧
    dueCard.mastered = false ∧ dueCard.nextReviewAt = some 100 ∧
      getReviewQueue 100 [dueCard] = [] := by
  have hempty : ∀ (now : ℤ) (vocab : List VocabularyEntry),
      getReviewQueue now vocab = [] := by
    intro now vocab
    unfold getReviewQueue
    have hinner : (vocab.filter (fun v => masteredIndexKey v.mastered == some 0)) = [] :=
      List.filter_eq_nil_iff.mpr (fun v _ => by simp [masteredIndexKey])
    rw [hinner]
    rfl
  exact ⟨hempty, rfl, rfl, hempty 100 [dueCard]⟩

/-- C9: toggleMastered updates only the mastered flag (to the negation of
the current value) and the updatedAt timestamp of the card with the given
id; interval, easeFactor, repetitions, nextReviewAt — and id, word,
meaning — are unchanged on every card, for every table, id and current
value. -/
theorem c9_toggle_mastered_frame (table : List VocabularyEntry)
    (cardId : ℕ) (current : Bool) (now : ℤ) :
    ((toggleMastered table cardId current now).map
        (fun v => (v.id, v.word, v.meaning, v.interval, v.easeFactor,
          v.repetitions, v.nextReviewAt)) =
      table.map (fun v => (v.id, v.word, v.meaning, v.interval,
        v.easeFactor, v.repetitions, v.nextReviewAt))) ∧
    ((toggleMastered table cardId current now).map (fun v => v.mastered) =
      table.map (fun v => if v.id = cardId then !current else v.mastered)) ∧
    ((toggleMastered table cardId current now).map (fun v => v.updatedAt) =
      table.map (fun v => if v.id = cardId then now else v.updatedAt)) := by
  induction table with
  | nil => simp [toggleMastered]
  | cons v t ih =>
    obtain ⟨ih1, ih2, ih3⟩ := ih
    simp only [toggleMastered, List.map_cons, List.map_map] at ih1 ih2 ih3 ⊢
    by_cases h : v.id = cardId <;>
      simp only [h, if_true, if_false, if_pos, if_neg, ne_eq,
        not_false_iff] <;>
      first
        | exact ⟨by simp [h, ih1], by simp [h, ih2], by simp [h, ih3]⟩

theorem prefetchTargets_bounds {current total n : ℕ}
    (h : n ∈ prefetchTargets current total) :
    1 ≤ n ∧ n ≤ current + 3 ∧ current ≤ n + 1 := by
  simp only [prefetchTargets, List.mem_append, List.mem_filter, List.mem_cons,
    List.not_mem_nil, or_false, decide_eq_true_eq] at h
  rcases h with ⟨hc, _⟩ | hbehind
  · omega
  · by_cases hcur : 1 ≤ current - 1 <;> simp [hcur] at hbehind <;> omega

theorem evictDistantPages_mem_bound {s : Finset ℕ} {c p : ℕ}
    (hp : p ∈ evictDistantPages s c) : p ∈ s ∧ c ≤ p + 4 ∧ p ≤ c + 4 := by
  unfold evictDistantPages at hp
  have h1 := Finset.mem_filter.mp hp
  have h2 := h1.2
  simp only [PREFETCH_AHEAD] at h2
  exact ⟨h1.1, by omega, by omega⟩

theorem pcUB_apply (total : ℕ) (st : PCState) (ev : PCEvent)
    (h : pcUB st) : pcUB (applyPC total st ev) := by
  obtain ⟨hres, hpend⟩ := h
  cases ev with
  | navNext =>
    constructor
    · intro p hp
      simp only [applyPC] at hp ⊢
      obtain ⟨hmem, _, _⟩ := evictDistantPages_mem_bound hp
      rcases Finset.mem_insert.mp hmem with rfl | hmem2
      · omega
      · have := hres p hmem2
        omega
    · intro p hp
      simp only [applyPC] at hp ⊢
      rcases Finset.mem_union.mp hp with h1 | h1
      · have := hpend p h1
        omega
      · have h2 := (Finset.mem_sdiff.mp h1).1
        have h3 := prefetchTargets_bounds (List.mem_toFinset.mp h2)
        omega
  | prefetchComplete p =>
    simp only [applyPC]
    split_ifs with hmem
    · constructor
      · intro q hq
        rcases Finset.mem_insert.mp hq with rfl | hq2
        · exact hpend q hmem
        · exact hres q hq2
      · intro q hq
        exact hpend q (Finset.mem_of_mem_erase hq)
    · exact ⟨hres, hpend⟩

theorem pcUB_run (total : ℕ) (evs : List PCEvent) :
    ∀ (st : PCState), pcUB st → pcUB (runPC total st evs) := by
  induction evs with
  | nil => intro st h; exact h
  | cons ev evs ih =>
    intro st h
    exact ih (applyPC total st ev) (pcUB_apply total st ev h)

/-- C1 counterexample: navigating sequentially through pages 1..4 of a
7-page document, with every prefetch completing before the next
navigation, leaves 7 resident cache entries — pages 1..7 — exceeding the
claimed bound aheadWindow + behindWindow + 2 = 6.  Eviction at distance
greater than max(aheadWindow, behindWindow) + 1 = 4 keeps behind pages
far longer than behindWindow = 1 would. -/
theorem c1_eviction_bound_counterexample :
    ¬ (((runPC 7 initPC c1CounterTrace).resident).card ≤
      PREFETCH_AHEAD + PREFETCH_BEHIND + 2) := by decide

/-- Nine resident entries are reachable between navigation steps: the
page-2 prefetch spawned at step 1 of c1NineTrace is never cancelled and
completes only after the eviction at step 7 removed page 2, re-inserting
it on top of the full window [3, 10].  Uncancelled fire-and-forget
prefetch completions therefore break any bound tighter than the
post-eviction one at instants between navigations. -/
theorem nine_resident_reachable :
    ((runPC 10 initPC c1NineTrace).resident).card = 9 := by decide

/-- C1 amended: in the state immediately following any navigation step's
completed render-evict-prefetch pass — whatever interleaving of the
uncancelled prefetch completions came before — the resident cache size
never exceeds aheadWindow + (max(aheadWindow, behindWindow) + 1) + 1 = 8:
the eviction pass leaves only pages within distance 4 below the current
page, and no page more than aheadWindow = 3 above it was ever rendered or
scheduled. -/
theorem c1_eviction_bound_amended (total : ℕ) (evs : List PCEvent) :
    ((runPC total initPC (evs ++ [PCEvent.navNext])).resident).card ≤
      PREFETCH_AHEAD + (max PREFETCH_AHEAD PREFETCH_BEHIND + 1) + 1 := by
  show _ ≤ 8
  have hub : pcUB (runPC total initPC evs) :=
    pcUB_run total evs initPC
      ⟨fun p hp => by simp [initPC] at hp, fun p hp => by simp [initPC] at hp⟩
  rw [runPC, List.foldl_append]
  change ((applyPC total (runPC total initPC evs)
    PCEvent.navNext).resident).card ≤ 8
  have hsub : (applyPC total (runPC total initPC evs)
      PCEvent.navNext).resident ⊆
      Finset.Icc ((runPC total initPC evs).current + 1 - 4)
        ((runPC total initPC evs).current + 1 + 3) := by
    intro p hp
    simp only [applyPC] at hp
    obtain ⟨hmem, hlow, _⟩ := evictDistantPages_mem_bound hp
    rw [Finset.mem_Icc]
    rcases Finset.mem_insert.mp hmem with rfl | hmem2
    · omega
    · have := hub.1 p hmem2
      omega
  calc ((applyPC total (runPC total initPC evs)
        PCEvent.navNext).resident).card
      ≤ (Finset.Icc ((runPC total initPC evs).current + 1 - 4)
          ((runPC total initPC evs).current + 1 + 3)).card :=
        Finset.card_le_card hsub
    _ = ((runPC total initPC evs).current + 1 + 3) + 1 -
          ((runPC total initPC evs).current + 1 - 4) := Nat.card_Icc _ _
    _ ≤ 8 := by omega

/-- C3 exhibits a bug in the code: a prefetch of page 5 at scale 1
passes the cacheScaleRef guard of line 95, the scale changes to 2 and the
effect flushes the cache, and then the prefetch resumes from its await
createImageBitmap and runs cache.set — inserting the scale-1 bitmap into
the flushed cache.  The subsequent render effect for page 5 at scale 2 is
a cache hit that draws the scale-1 bitmap: the get at the new scale
returns a bitmap rendered at the old scale, although the claim says the
flush makes that impossible and that a stale prefetch never inserts.
The main-render path has the same shape (line 198 check, line 200 await,
line 201 set). -/
theorem c3_stale_scale_bug :
    (runCache (initCache 1) c3BugTrace).cacheScale = 2 ∧
    (runCache (initCache 1) c3BugTrace).cache.lookup 5 = some 1 ∧
    (runCache (initCache 1)
      (c3BugTrace ++ [CacheEvent.effectRun 5 2])).cache.lookup 5 = some 1 := by
  decide

/-- C4 exhibits a bug in the code: in the interleaving c4BugTrace the
most recent navigation request is for page 7 (curPage = 7), page 7 is
painted and reported, yet the superseded page-5 closure — resuming from
the text-layer await, the one await after which the code does not check
its cancelled flag — fires onPageChange last with page 5, so the final
reported page is 5, not the page of the most recent request. -/
theorem c4_stale_report_bug :
    (runReader initReader c4BugTrace).curPage = 7 ∧
    (runReader initReader c4BugTrace).reported = some 5 := by decide
